import Mathlib

/-!
Verification development for the AEOPresence LLM-invocation resilience layer:
the retry/backoff engine, the error classifier, the cooperative rate limiter,
the response validation/sanitization pipeline, and the generation
orchestrator.  TypeScript/JavaScript code is shallowly embedded: JS strings
become `String` (operations implemented over `List Char`), dynamically typed
JSON values become the inductive `JSValue`, JS numbers in the backoff
calculator become `ℚ` with an injected random sample, elapsed real time in
the rate limiter becomes an explicit millisecond clock advanced by `sleep`,
and fallible code returns `Option`/`Except`.
-/

set_option maxRecDepth 100000

namespace AEO

/-! JavaScript string primitives -/

/-- Whitespace class used by JavaScript `String.prototype.trim`
(the common members; exotic Unicode space separators behave identically
for every string appearing in this development). -/
def isJsWhitespace (c : Char) : Bool :=
  c = ' ' || c = '\t' || c = '\n' || c = '\r' || c = '\x0b' || c = '\x0c' || c = ' '

/-- Trim leading and trailing whitespace from a list of characters,
modelling JS `trim`. -/
def trimList (cs : List Char) : List Char :=
  ((cs.dropWhile isJsWhitespace).reverse.dropWhile isJsWhitespace).reverse

/-- JS `s.trim()`. -/
def jsTrim (s : String) : String :=
  (trimList s.toList).asString

/-- JS `s.toLowerCase()`. -/
def jsToLower (s : String) : String :=
  (s.toList.map Char.toLower).asString

/-- JS `s.includes(pat)`: substring containment. -/
def jsIncludes (s pat : String) : Bool :=
  decide (pat.toList <:+: s.toList)

/-- JS `s.substring(0, n)`. -/
def jsSubstr (s : String) (n : Nat) : String :=
  (s.toList.take n).asString

/-! Dynamically typed JSON values (`any` in the TypeScript source) -/

/-- Model of a JavaScript runtime value as seen by the sanitization layer.
Numbers are modelled as integers: the sanitizers only ever test
`typeof v === 'string'` / `Array.isArray(v)`, so the numeric payload is
irrelevant. -/
inductive JSValue where
  | str (s : String)
  | num (n : Int)
  | boolean (b : Bool)
  | null
  | undefined
  | arr (xs : List JSValue)
  | obj (fields : List (String × JSValue))

/-- Property access `v[key]` on a value that is neither `null` nor
`undefined` (on those the access throws, handled by the caller): a missing
key and access on a primitive both yield `undefined`. -/
def getFieldD : JSValue → String → JSValue
  | .obj fields, key => (((fields.find? (fun kv => kv.1 == key)).map Prod.snd).getD .undefined)
  | _, _ => .undefined

/-- JS `typeof v === 'string'`. -/
def jsIsString : JSValue → Bool
  | .str _ => true
  | _ => false

/-- String payload of a value; only ever used under a `jsIsString` guard. -/
def jsStr : JSValue → String
  | .str s => s
  | _ => ""

/-! Shared types (supabase/functions/_shared/types.ts) -/

/-- Error types for retry logic (enum `ErrorType` in types.ts). -/
inductive ErrorType where
  | RATE_LIMIT
  | PARSE_ERROR
  | NETWORK_ERROR
  | VALIDATION_ERROR
  | AUTH_ERROR
  | UNKNOWN
deriving DecidableEq, BEq

/-- Configuration for retry logic with exponential backoff (`RetryConfig` in
types.ts).  The three delay fields are JS numbers, modelled as rationals. -/
structure RetryConfig where
  maxRetries : Nat
  initialDelayMs : ℚ
  maxDelayMs : ℚ
  backoffMultiplier : ℚ

/-- Default retry configuration (`DEFAULT_RETRY_CONFIG` in types.ts). -/
def DEFAULT_RETRY_CONFIG : RetryConfig :=
  { maxRetries := 3, initialDelayMs := 1000, maxDelayMs := 30000, backoffMultiplier := 2 }

/-- Gemini API rate limits (`GeminiRateLimits` in types.ts). -/
structure GeminiRateLimits where
  requestsPerMinute : Nat
  tokensPerMinute : Nat
  requestsPerDay : Nat

/-- Gemini Flash free-tier limits (`GEMINI_FLASH_LIMITS` in types.ts). -/
def GEMINI_FLASH_LIMITS : GeminiRateLimits :=
  { requestsPerMinute := 15, tokensPerMinute := 1000000, requestsPerDay := 1500 }

/-- Valid query types (`VALID_QUERY_TYPES` in types.ts). -/
def VALID_QUERY_TYPES : List String :=
  ["Educational", "Service-Aligned"]

/-- Valid query categories (`VALID_QUERY_CATEGORIES` in types.ts). -/
def VALID_QUERY_CATEGORIES : List String :=
  ["Industry monitoring",
   "Competitor benchmarking",
   "Operational training",
   "Foundational understanding",
   "Real-world learning examples",
   "Educational — people-focused",
   "Trend explanation",
   "Pain-point focused — commercial intent",
   "Product or vendor-related — lead intent",
   "Decision-stage — ready to buy or engage"]

/-- Query analysis result schema (`QueryAnalysisSchema` in types.ts).  The
source narrows `query_type` to a two-literal union; here it is a `String`
and the narrowing is proved as a theorem. -/
structure QueryAnalysisSchema where
  brand_mentions : List String
  source : String
  query_type : String
  query_category : String
deriving DecidableEq

/-! Response sanitizer (supabase/functions/_shared/validation.ts,
`validateAndSanitize`, lines 47-130).  Each `let`-block of the source
function is embedded as one definition over the corresponding field
value. -/

/-- Message of the error thrown by `safeJSONParse` (validation.ts lines
33-41) when `JSON.parse` fails: `text` is the string being parsed and
`jsError` the message of the underlying `SyntaxError`. -/
def safeJSONParseMessage (text : String) (jsError : String) : String :=
  "Failed to parse JSON: " ++ jsSubstr text 200 ++ "... (Error: " ++ jsError ++ ")"

/-- Sanitization of `parsed.brand_mentions` (validation.ts lines 58-77):
an array keeps its non-blank string entries trimmed, a string is split on
commas; at most 20 entries, with a sentinel when none survive. -/
def sanitizeBrandMentionsRaw (v : JSValue) : List String :=
  match v with
  | .arr xs =>
      ((xs.filter (fun b => jsIsString b && (jsTrim (jsStr b) != ""))).map
        (fun b => jsTrim (jsStr b))).take 20
  | .str s =>
      (((s.splitOn ",").map jsTrim).filter (fun b => 0 < b.length)).take 20
  | _ => []

/-- Default applied when no brands survive (validation.ts lines 74-77). -/
def sanitizeBrandMentions (v : JSValue) : List String :=
  if (sanitizeBrandMentionsRaw v).isEmpty then ["No specific brands identified"]
  else sanitizeBrandMentionsRaw v

/-- Sanitization of `parsed.source` (validation.ts lines 79-83): a string
with non-blank trim is trimmed and truncated to 500 characters, anything
else becomes the sentinel. -/
def sanitizeSource (v : JSValue) : String :=
  match v with
  | .str s => if jsTrim s != "" then jsSubstr (jsTrim s) 500 else "Unknown"
  | _ => "Unknown"

/-- Sanitization of `parsed.query_type` (validation.ts lines 85-97).  The
source first tests `VALID_QUERY_TYPES.includes(parsed.query_type)` (strict
equality, hence false for every non-string) and then falls back to fuzzy
matching for strings, defaulting to Educational. -/
def sanitizeQueryType (v : JSValue) : String :=
  match v with
  | .str s =>
      if VALID_QUERY_TYPES.contains s then s
      else
        let normalized := jsToLower s
        if jsIncludes normalized "service" || jsIncludes normalized "aligned" then
          "Service-Aligned"
        else "Educational"
  | _ => "Educational"

/-- Fuzzy category matcher (validation.ts lines 110-114): first category
whose lower-cased name equals, contains, or is contained in the lower-cased
trimmed input. -/
def categoryFuzzyMatch (normalized : String) : Option String :=
  let lowerNormalized := jsToLower normalized
  VALID_QUERY_CATEGORIES.find? (fun cat =>
    jsToLower cat == lowerNormalized ||
    jsIncludes lowerNormalized (jsToLower cat) ||
    jsIncludes (jsToLower cat) lowerNormalized)

/-- Sanitization of `parsed.query_category` (validation.ts lines 99-120):
exact match against the enum, else fuzzy match, else the default first
category. -/
def sanitizeQueryCategory (v : JSValue) : String :=
  match v with
  | .str s =>
      let normalized := jsTrim s
      if VALID_QUERY_CATEGORIES.contains normalized then normalized
      else
        match categoryFuzzyMatch normalized with
        | some m => m
        | none => "Industry monitoring"
  | _ => "Industry monitoring"

/-- Embedding of `validateAndSanitize` (validation.ts lines 47-130) on an
already-parsed value.  `none` models a thrown exception: property access on
`null`/`undefined` throws a `TypeError`, and a string input goes through
`extractJSON`/`safeJSONParse` (the raw-text JSON parse, whose failure
message is `safeJSONParseMessage`), which is outside this embedding. -/
def validateAndSanitize (response : JSValue) : Option QueryAnalysisSchema :=
  match response with
  | .str _ => none
  | .null => none
  | .undefined => none
  | parsed => some
      { brand_mentions := sanitizeBrandMentions (getFieldD parsed "brand_mentions"),
        source := sanitizeSource (getFieldD parsed "source"),
        query_type := sanitizeQueryType (getFieldD parsed "query_type"),
        query_category := sanitizeQueryCategory (getFieldD parsed "query_category") }

/-- JSON serialize-then-reparse of a sanitized result, as used by the
idempotence property: the four fields become a plain JSON object. -/
def toJSValue (r : QueryAnalysisSchema) : JSValue :=
  .obj [("brand_mentions", .arr (r.brand_mentions.map .str)),
        ("source", .str r.source),
        ("query_type", .str r.query_type),
        ("query_category", .str r.query_category)]

/-! Gemini helper (supabase/functions/_shared/gemini-helper.ts) -/

/-- Error classifier `detectErrorType` (gemini-helper.ts lines 32-52).  The
input is the error's `message` property (`none` when absent, mirroring
`error.message?.toLowerCase() || ''`). -/
def detectErrorType (message? : Option String) : ErrorType :=
  let message := match message? with
    | some s => jsToLower s
    | none => ""
  if jsIncludes message "429" || jsIncludes message "rate limit" || jsIncludes message "quota" then
    .RATE_LIMIT
  else if jsIncludes message "parse" || jsIncludes message "json" || jsIncludes message "invalid" then
    .PARSE_ERROR
  else if jsIncludes message "network" || jsIncludes message "fetch" || jsIncludes message "timeout" then
    .NETWORK_ERROR
  else if jsIncludes message "validation" then
    .VALIDATION_ERROR
  else if jsIncludes message "auth" || jsIncludes message "401" || jsIncludes message "403" then
    .AUTH_ERROR
  else
    .UNKNOWN

/-- Retryability predicate `shouldRetry` (gemini-helper.ts lines 57-64). -/
def shouldRetry (errorType : ErrorType) : Bool :=
  [ErrorType.RATE_LIMIT, ErrorType.PARSE_ERROR,
   ErrorType.NETWORK_ERROR, ErrorType.VALIDATION_ERROR].contains errorType

/-- Backoff calculator `calculateRetryDelay` (gemini-helper.ts lines
69-90).  JS float arithmetic is modelled over `ℚ`; the `Math.random()`
sample (in `[0,1)`) is injected as `rand`.  Returns whole milliseconds
(`Math.floor`). -/
def calculateRetryDelay (attempt : Nat) (config : RetryConfig)
    (errorType : ErrorType) (rand : ℚ) : ℤ :=
  let baseDelay := min (config.initialDelayMs * config.backoffMultiplier ^ attempt)
    config.maxDelayMs
  let jitter := baseDelay * 0.25 * (rand - 0.5) * 2
  let delay := ⌊baseDelay + jitter⌋
  if errorType = ErrorType.RATE_LIMIT then max delay 60000 else delay

/-- Observable trace of one `callGeminiWithRetry` run: the final outcome
(`Except.error` models a thrown error carrying its message), the number of
remote calls made, and the list of awaited backoff delays. -/
structure RetryTrace (α : Type) where
  result : Except String α
  calls : Nat
  delays : List ℤ

/-- Body of the retry loop of `callGeminiWithRetry` (gemini-helper.ts lines
149-214) from a given attempt number.  `call n` is the outcome of the n-th
remote invocation (the `callGeminiAPI` call together with text extraction
and `validateAndSanitize`, which the source wraps in one `try`), as a
success value or a thrown error's message.  `rand n` is the `Math.random()`
sample used for the backoff after attempt n. -/
def retryAux {α : Type} (call : Nat → Except String α) (config : RetryConfig)
    (rand : Nat → ℚ) (attempt : Nat) : RetryTrace α :=
  match call attempt with
  | .ok a => { result := .ok a, calls := 1, delays := [] }
  | .error m =>
    if _h : config.maxRetries ≤ attempt then
      { result := .error m, calls := 1, delays := [] }
    else if shouldRetry (detectErrorType (some m)) = false then
      { result := .error m, calls := 1, delays := [] }
    else
      let d := calculateRetryDelay attempt config (detectErrorType (some m)) (rand attempt)
      let t := retryAux call config rand (attempt + 1)
      { result := t.result, calls := t.calls + 1, delays := d :: t.delays }
termination_by config.maxRetries - attempt

/-- Retrying invoker `callGeminiWithRetry` (gemini-helper.ts lines
141-218): the loop starting at attempt 0. -/
def callGeminiWithRetry {α : Type} (call : Nat → Except String α)
    (config : RetryConfig) (rand : Nat → ℚ) : RetryTrace α :=
  retryAux call config rand 0

/-! Rate limiter (gemini-helper.ts lines 223-296)

Discrete-time model of `GeminiRateLimiter.processQueue` for a queue of
`pending` instant no-op requests: `now` is the millisecond clock, advanced
exactly by the `sleep` calls of the loop (a no-op request body itself takes
no time).  The returned list holds the `Date.now()` execution timestamps
recorded for the admitted requests, in admission order.  `fuel` bounds the
number of loop iterations (the source loop is unbounded; every theorem
below holds for every fuel). -/

/-- Admission loop `processQueue`: prune timestamps older than 60s; when
the in-window count has reached `requestsPerMinute`, sleep until the oldest
timestamp exits the window plus a 100 ms buffer; otherwise admit the next
request, record its timestamp, and insert a 200 ms grace delay when more
requests are queued.  `headD 0` is only evaluated on a non-empty list when
`requestsPerMinute > 0`; `max _ 0` models `setTimeout` clamping. -/
def processQueue (limits : GeminiRateLimits) :
    Nat → Nat → List Int → Int → List Int
  | 0, _, _, _ => []
  | _ + 1, 0, _, _ => []
  | fuel + 1, pending + 1, requestTimestamps, now =>
    let ts := requestTimestamps.filter (fun t => now - t < 60000)
    if limits.requestsPerMinute ≤ ts.length then
      let oldestRequest := ts.headD 0
      let waitTime := 60000 - (now - oldestRequest) + 100
      processQueue limits fuel (pending + 1) ts (now + max waitTime 0)
    else
      now :: processQueue limits fuel pending (ts ++ [now])
        (if pending > 0 then now + 200 else now)

/-! Generation orchestrator (src/lib/supabase-integrations.js,
`handleGenerateQueries`, lines 366-429) -/

/-- One generated query record as produced by the model (the fields the
orchestrator forwards; `query_id` is whatever the model returned until the
orchestrator renumbers it). -/
structure GenQuery where
  query_id : Int
  query_text : String
  query_type : String
  query_category : String
  query_format : String
  target_audience : String
deriving DecidableEq

/-- JS `array.map((q, idx) => ...)` with the running index made explicit. -/
def jsMapIdxAux {α β : Type} (f : Nat → α → β) : Nat → List α → List β
  | _, [] => []
  | i, a :: as => f i a :: jsMapIdxAux f (i + 1) as

/-- JS `array.map((q, idx) => ...)`. -/
def jsMapIdx {α β : Type} (f : Nat → α → β) (l : List α) : List β :=
  jsMapIdxAux f 0 l

/-- Supplementary-generation loop of `handleGenerateQueries`
(supabase-integrations.js lines 371-425): while the collected queries fall
short of `count` and fewer than 3 supplementary attempts were made, issue
one more generation call (`supplier n` is the query list returned by the
n-th supplementary `InvokeLLM` call, n = 1, 2, 3) and concatenate a
non-empty result.  Returns the collected list and the number of
supplementary calls issued. -/
def genLoop (count : Nat) (supplier : Nat → List GenQuery) :
    List GenQuery → Nat → List GenQuery × Nat
  | generatedQueries, attempts =>
    if h : generatedQueries.length < count ∧ attempts < 3 then
      let extra := supplier (attempts + 1)
      genLoop count supplier
        (if extra.length > 0 then generatedQueries ++ extra else generatedQueries)
        (attempts + 1)
    else
      (generatedQueries, attempts)
termination_by _ attempts => 3 - attempts

/-- Generation-mode orchestration (supabase-integrations.js lines 365-429):
start from the initial response's query list (`[]` when absent), run the
supplementary loop, then cap at `count` and renumber `query_id`
sequentially from 1 (`slice(0, count).map((q, idx) => ({...q, query_id:
idx + 1}))`). -/
def handleGenerateQueries (count : Nat) (initialResponse : Option (List GenQuery))
    (supplier : Nat → List GenQuery) : List GenQuery × Nat :=
  let generatedQueries := initialResponse.getD []
  let result := genLoop count supplier generatedQueries 0
  (jsMapIdx (fun idx q => { q with query_id := (idx : Int) + 1 }) (result.1.take count),
    result.2)

/-! String-layer lemmas -/

theorem dropWhile_dropWhile {α : Type} (p : α → Bool) (l : List α) :
    (l.dropWhile p).dropWhile p = l.dropWhile p := by
  induction l with
  | nil => rfl
  | cons a as ih =>
    by_cases h : p a
    · simp [List.dropWhile_cons, h, ih]
    · simp [List.dropWhile_cons, h]

theorem dropWhile_eq_cons_head_false {α : Type} {p : α → Bool} {l : List α}
    {a : α} {t : List α} (h : l.dropWhile p = a :: t) : p a = false := by
  have hh := List.head?_dropWhile_not p l
  rw [h] at hh
  simpa using hh

theorem trimList_dropWhile (cs : List Char) :
    (trimList cs).dropWhile isJsWhitespace = trimList cs := by
  have hpre : trimList cs <+: cs.dropWhile isJsWhitespace := by
    have h2 := List.reverse_prefix.mpr
      (List.dropWhile_suffix (l := (cs.dropWhile isJsWhitespace).reverse) isJsWhitespace)
    rwa [List.reverse_reverse] at h2
  rcases hc : trimList cs with _ | ⟨a, t⟩
  · rfl
  · rw [hc] at hpre
    rcases hpre with ⟨u, hu⟩
    have hd : cs.dropWhile isJsWhitespace = a :: (t ++ u) := by rw [← hu]; rfl
    have ha : isJsWhitespace a = false := dropWhile_eq_cons_head_false hd
    simp [List.dropWhile_cons, ha]

theorem trimList_idem (cs : List Char) : trimList (trimList cs) = trimList cs := by
  conv_lhs => rw [trimList, trimList_dropWhile]
  rw [trimList, List.reverse_reverse, dropWhile_dropWhile, ← trimList]

theorem jsTrim_idem (s : String) : jsTrim (jsTrim s) = jsTrim s := by
  rw [jsTrim, jsTrim, List.toList_asString, trimList_idem]

theorem toList_append (a b : String) : (a ++ b).toList = a.toList ++ b.toList :=
  String.data_append a b

theorem asString_append (l₁ l₂ : List Char) :
    (l₁ ++ l₂).asString = l₁.asString ++ l₂.asString := rfl

theorem jsToLower_append (a b : String) :
    jsToLower (a ++ b) = jsToLower a ++ jsToLower b := by
  rw [jsToLower, jsToLower, jsToLower, toList_append, List.map_append, asString_append]

theorem jsIncludes_append_left {a : String} (b : String) {pat : String}
    (h : jsIncludes a pat = true) : jsIncludes (a ++ b) pat = true := by
  rw [jsIncludes, decide_eq_true_eq] at *
  rw [toList_append]
  exact h.trans ((List.prefix_append _ _).isInfix)

theorem asString_eq_empty_iff (l : List Char) : l.asString = "" ↔ l = [] := by
  rw [← String.asString_nil, List.asString_inj]

theorem length_toList (s : String) : s.toList.length = s.length := rfl

theorem jsSubstr_length_le (s : String) (n : Nat) : (jsSubstr s n).length ≤ n := by
  rw [jsSubstr, List.length_asString]
  exact (List.length_take _ _).trans_le (Nat.min_le_left _ _)

theorem jsSubstr_of_length_le {s : String} {n : Nat} (h : s.length ≤ n) :
    jsSubstr s n = s := by
  rw [jsSubstr, List.take_of_length_le (by rw [length_toList]; exact h),
    String.asString_toList]

theorem jsSubstr_ne_empty {s : String} {n : Nat} (hs : s ≠ "") (hn : 0 < n) :
    jsSubstr s n ≠ "" := by
  rw [jsSubstr, Ne, asString_eq_empty_iff]
  intro htake
  apply hs
  have hlist : s.toList = [] := by
    rcases hl : s.toList with _ | ⟨c, cs⟩
    · rfl
    · rcases n with _ | m
      · exact absurd hn (by simp)
      · rw [hl] at htake
        simp [List.take] at htake
  rw [← String.asString_toList s, hlist, String.asString_nil]

/-! Sanitizer invariant lemmas -/

theorem mem_sanitizeBrandMentionsRaw {v : JSValue} {b : String}
    (h : b ∈ sanitizeBrandMentionsRaw v) : jsTrim b = b ∧ b ≠ "" := by
  rcases v with s | n | bb | _ | _ | xs | fields <;>
    simp only [sanitizeBrandMentionsRaw] at h
  case str =>
    have h1 := List.mem_of_mem_take h
    have h2 := List.mem_filter.mp h1
    rcases List.mem_map.mp h2.1 with ⟨piece, _, rfl⟩
    refine ⟨jsTrim_idem piece, ?_⟩
    have hlen := of_decide_eq_true h2.2
    intro he
    rw [he] at hlen
    exact absurd hlen (by decide)
  case arr =>
    have h1 := List.mem_of_mem_take h
    rcases List.mem_map.mp h1 with ⟨x, hx, rfl⟩
    have hcond := (List.mem_filter.mp hx).2
    rcases Bool.and_eq_true_iff.mp hcond with ⟨_, hne⟩
    exact ⟨jsTrim_idem (jsStr x), by simpa using hne⟩
  all_goals exact absurd h (List.not_mem_nil b)

theorem mem_sanitizeBrandMentions {v : JSValue} {b : String}
    (h : b ∈ sanitizeBrandMentions v) : jsTrim b = b ∧ b ≠ "" := by
  rw [sanitizeBrandMentions] at h
  split at h
  · rcases List.mem_singleton.mp h with rfl
    exact ⟨by decide, by decide⟩
  · exact mem_sanitizeBrandMentionsRaw h

theorem sanitizeBrandMentionsRaw_length {v : JSValue} :
    (sanitizeBrandMentionsRaw v).length ≤ 20 := by
  rcases v with s | n | bb | _ | _ | xs | fields <;> simp only [sanitizeBrandMentionsRaw] <;>
    first
      | exact (List.length_take _ _).trans_le (Nat.min_le_left _ _)
      | exact Nat.le_of_lt (by decide)

theorem sanitizeBrandMentions_length {v : JSValue} :
    1 ≤ (sanitizeBrandMentions v).length ∧ (sanitizeBrandMentions v).length ≤ 20 := by
  rw [sanitizeBrandMentions]
  split
  · exact ⟨by decide, by decide⟩
  · next hne =>
    refine ⟨?_, sanitizeBrandMentionsRaw_length⟩
    rcases hl : sanitizeBrandMentionsRaw v with _ | _
    · rw [hl] at hne; exact absurd rfl hne
    · simp

theorem sanitizeSource_ne_empty {v : JSValue} : sanitizeSource v ≠ "" := by
  rcases v with s | n | bb | _ | _ | xs | fields <;> simp only [sanitizeSource] <;>
    try decide
  split
  · next hcond =>
    exact jsSubstr_ne_empty (by simpa using hcond) (by decide)
  · decide

theorem sanitizeSource_length {v : JSValue} : (sanitizeSource v).length ≤ 500 := by
  rcases v with s | n | bb | _ | _ | xs | fields <;> simp only [sanitizeSource] <;>
    try decide
  split
  · exact jsSubstr_length_le _ _
  · decide

theorem sanitizeQueryType_mem {v : JSValue} :
    sanitizeQueryType v = "Educational" ∨ sanitizeQueryType v = "Service-Aligned" := by
  rcases v with s | n | bb | _ | _ | xs | fields <;> simp only [sanitizeQueryType]
  case str =>
    split
    · next hc =>
      have hmem : s ∈ VALID_QUERY_TYPES := List.elem_iff.mp hc
      simpa [VALID_QUERY_TYPES] using hmem
    · split
      · right; rfl
      · left; rfl
  all_goals exact Or.inl trivial

theorem sanitizeQueryCategory_mem {v : JSValue} :
    sanitizeQueryCategory v ∈ VALID_QUERY_CATEGORIES := by
  rcases v with s | n | bb | _ | _ | xs | fields <;> simp only [sanitizeQueryCategory]
  case str =>
    split
    · next hc => exact List.elem_iff.mp hc
    · simp only [categoryFuzzyMatch]
      split
      · next m hm => exact List.mem_of_find?_eq_some hm
      · decide
  all_goals decide

theorem cats_ne_empty : ∀ c ∈ VALID_QUERY_CATEGORIES, c ≠ "" := by decide

theorem cats_trim_fixed : ∀ c ∈ VALID_QUERY_CATEGORIES, jsTrim c = c := by decide

theorem validateAndSanitize_eq_some {parsed : JSValue} {r : QueryAnalysisSchema}
    (h : validateAndSanitize parsed = some r) :
    r = { brand_mentions := sanitizeBrandMentions (getFieldD parsed "brand_mentions"),
          source := sanitizeSource (getFieldD parsed "source"),
          query_type := sanitizeQueryType (getFieldD parsed "query_type"),
          query_category := sanitizeQueryCategory (getFieldD parsed "query_category") } := by
  rcases parsed with s | n | bb | _ | _ | xs | fields <;>
    simp only [validateAndSanitize, Option.some.injEq] at h <;>
    first | exact h.symm | cases h

/-! Re-sanitization lemmas: a sanitized value equal to its own trim
passes through each sanitizer unchanged. -/

theorem brand_filter_map (bs : List String)
    (hmem : ∀ b ∈ bs, jsTrim b = b ∧ b ≠ "") :
    ((bs.map JSValue.str).filter (fun b => jsIsString b && (jsTrim (jsStr b) != ""))).map
      (fun b => jsTrim (jsStr b)) = bs := by
  induction bs with
  | nil => rfl
  | cons hd tl ih =>
    have hhd := hmem hd (List.mem_cons_self hd tl)
    have htl := ih (fun b hb => hmem b (List.mem_cons_of_mem hd hb))
    have hcond : (jsIsString (JSValue.str hd) && (jsTrim (jsStr (JSValue.str hd)) != "")) = true := by
      simp only [jsIsString, jsStr, Bool.true_and, hhd.1]
      exact bne_iff_ne.mpr hhd.2
    simp only [List.map_cons, List.filter_cons, hcond, if_pos, List.map]
    rw [htl]
    simp [jsStr, hhd.1]

theorem resanitize_brand {bs : List String}
    (hmem : ∀ b ∈ bs, jsTrim b = b ∧ b ≠ "") (hlen : bs.length ≤ 20)
    (hpos : 1 ≤ bs.length) :
    sanitizeBrandMentions (.arr (bs.map .str)) = bs := by
  have hraw : sanitizeBrandMentionsRaw (.arr (bs.map .str)) = bs := by
    simp only [sanitizeBrandMentionsRaw]
    rw [brand_filter_map bs hmem]
    exact List.take_of_length_le hlen
  rw [sanitizeBrandMentions, hraw, if_neg]
  simp only [List.isEmpty_iff]
  intro he
  rw [he] at hpos
  exact absurd hpos (by decide)

theorem resanitize_source {s : String} (h1 : s ≠ "") (h2 : jsTrim s = s)
    (h3 : s.length ≤ 500) : sanitizeSource (.str s) = s := by
  have hc : (jsTrim s != "") = true := by rw [h2]; simpa using h1
  simp only [sanitizeSource]
  rw [if_pos hc, h2, jsSubstr_of_length_le h3]

theorem resanitize_qtype {qt : String}
    (h : qt = "Educational" ∨ qt = "Service-Aligned") :
    sanitizeQueryType (.str qt) = qt := by
  rcases h with rfl | rfl <;> decide

theorem resanitize_qcat {qc : String} (h : qc ∈ VALID_QUERY_CATEGORIES) :
    sanitizeQueryCategory (.str qc) = qc := by
  fin_cases h <;> decide

/-- Claim C1 (theorem): for every object input (missing fields, wrong-typed
fields, empty arrays included), `validateAndSanitize` returns a result
(never throws) whose four fields are all populated: 1 to 20 trimmed
non-empty brand mentions, a non-empty source of at most 500 characters, and
non-empty query type and category. -/
theorem c1_sanitize_total_and_populated (fields : List (String × JSValue)) :
    ∃ r, validateAndSanitize (.obj fields) = some r ∧
      1 ≤ r.brand_mentions.length ∧ r.brand_mentions.length ≤ 20 ∧
      (∀ b ∈ r.brand_mentions, jsTrim b = b ∧ b ≠ "") ∧
      r.source ≠ "" ∧ r.source.length ≤ 500 ∧
      r.query_type ≠ "" ∧ r.query_category ≠ "" := by
  refine ⟨_, rfl, sanitizeBrandMentions_length.1, sanitizeBrandMentions_length.2,
    fun b hb => mem_sanitizeBrandMentions hb, sanitizeSource_ne_empty,
    sanitizeSource_length, ?_, ?_⟩
  · show sanitizeQueryType (getFieldD (.obj fields) "query_type") ≠ ""
    rcases sanitizeQueryType_mem (v := getFieldD (.obj fields) "query_type") with h | h <;>
      rw [h] <;> decide
  · exact cats_ne_empty _ sanitizeQueryCategory_mem

/-- Claim C1 (witness): the guarantees instantiated at a malformed object
with a wrong-typed `brand_mentions` and everything else missing. -/
theorem c1_witness :
    ∃ r, validateAndSanitize (.obj [("brand_mentions", .num 5)]) = some r ∧
      1 ≤ r.brand_mentions.length ∧ r.brand_mentions.length ≤ 20 ∧
      (∀ b ∈ r.brand_mentions, jsTrim b = b ∧ b ≠ "") ∧
      r.source ≠ "" ∧ r.source.length ≤ 500 ∧
      r.query_type ≠ "" ∧ r.query_category ≠ "" :=
  c1_sanitize_total_and_populated [("brand_mentions", .num 5)]

/-- Claim C2 (theorem): every sanitized result has `query_type` among
exactly the 2 valid types and `query_category` among exactly the 10 valid
categories, and an input category that is neither an exact nor a fuzzy
match yields the default first category "Industry monitoring". -/
theorem c2_enum_closure {parsed : JSValue} {r : QueryAnalysisSchema}
    (h : validateAndSanitize parsed = some r) :
    (r.query_type = "Educational" ∨ r.query_type = "Service-Aligned") ∧
    VALID_QUERY_TYPES.length = 2 ∧
    r.query_category ∈ VALID_QUERY_CATEGORIES ∧
    VALID_QUERY_CATEGORIES.length = 10 ∧
    VALID_QUERY_CATEGORIES.head? = some "Industry monitoring" ∧
    (∀ s, getFieldD parsed "query_category" = .str s →
      VALID_QUERY_CATEGORIES.contains (jsTrim s) = false →
      categoryFuzzyMatch (jsTrim s) = none →
      r.query_category = "Industry monitoring") := by
  have heq := validateAndSanitize_eq_some h
  refine ⟨by rw [heq]; exact sanitizeQueryType_mem, by decide,
    by rw [heq]; exact sanitizeQueryCategory_mem, by decide, by decide, ?_⟩
  intro s hs hc hf
  rw [heq]
  show sanitizeQueryCategory (getFieldD parsed "query_category") = "Industry monitoring"
  rw [hs]
  simp only [sanitizeQueryCategory]
  rw [if_neg (by rw [hc]; decide), hf]

def c2in : JSValue := .obj [("query_category", .str "zzz"), ("query_type", .str "nope")]

def c2out : QueryAnalysisSchema :=
  { brand_mentions := ["No specific brands identified"], source := "Unknown",
    query_type := "Educational", query_category := "Industry monitoring" }

/-- Claim C2 (witness): enum closure and the unmatched-category default at a
concrete unrelated input. -/
theorem c2_witness :
    validateAndSanitize c2in = some c2out ∧
    c2out.query_category ∈ VALID_QUERY_CATEGORIES ∧
    c2out.query_category = "Industry monitoring" := by
  have h := c2_enum_closure (show validateAndSanitize c2in = some c2out by decide)
  exact ⟨by decide, h.2.2.1,
    h.2.2.2.2.2 "zzz" rfl (by decide) (by decide)⟩

/-- Claim C7 (amended theorem): sanitization is idempotent under
serialize-then-reparse for every input whose sanitized `source` survives a
re-trim unchanged — in particular whenever the trimmed source did not get
truncated at a whitespace character.  (The unrestricted claim fails, see
the counterexample.) -/
theorem c7_sanitize_idempotent_of_trim_stable {parsed : JSValue}
    {r : QueryAnalysisSchema} (h : validateAndSanitize parsed = some r)
    (hsrc : jsTrim r.source = r.source) :
    validateAndSanitize (toJSValue r) = some r := by
  have heq := validateAndSanitize_eq_some h
  have hbm_mem : ∀ b ∈ r.brand_mentions, jsTrim b = b ∧ b ≠ "" := by
    rw [heq]; exact fun b hb => mem_sanitizeBrandMentions hb
  have hbm_len : 1 ≤ r.brand_mentions.length ∧ r.brand_mentions.length ≤ 20 := by
    rw [heq]; exact sanitizeBrandMentions_length
  have hsrc_ne : r.source ≠ "" := by rw [heq]; exact sanitizeSource_ne_empty
  have hsrc_len : r.source.length ≤ 500 := by rw [heq]; exact sanitizeSource_length
  have hqt : r.query_type = "Educational" ∨ r.query_type = "Service-Aligned" := by
    rw [heq]; exact sanitizeQueryType_mem
  have hqc : r.query_category ∈ VALID_QUERY_CATEGORIES := by
    rw [heq]; exact sanitizeQueryCategory_mem
  have hv : validateAndSanitize (toJSValue r) = some
      { brand_mentions := sanitizeBrandMentions (.arr (r.brand_mentions.map .str)),
        source := sanitizeSource (.str r.source),
        query_type := sanitizeQueryType (.str r.query_type),
        query_category := sanitizeQueryCategory (.str r.query_category) } := rfl
  rw [hv, resanitize_brand hbm_mem hbm_len.2 hbm_len.1,
    resanitize_source hsrc_ne hsrc hsrc_len, resanitize_qtype hqt, resanitize_qcat hqc]

def c7x : JSValue :=
  .obj [("source", .str ((List.replicate 499 'a' ++ [' ', 'b']).asString))]

/-- Claim C7 (counterexample): sanitization is not idempotent as stated: on
an object whose source is 499 letters, a space, and one more letter, the
500-character truncation ends in a space, and re-sanitizing the
serialized output trims it away, changing the result. -/
theorem c7_counterexample :
    (validateAndSanitize c7x).bind (fun r => validateAndSanitize (toJSValue r)) ≠
      validateAndSanitize c7x := by decide

def c7w : JSValue :=
  .obj [("source", .str "  hi  "), ("brand_mentions", .arr [.str " Acme "]),
        ("query_type", .str "service")]

def c7wOut : QueryAnalysisSchema :=
  { brand_mentions := ["Acme"], source := "hi",
    query_type := "Service-Aligned", query_category := "Industry monitoring" }

/-- Claim C7 (witness): idempotence at a concrete input whose sanitized
source is trim-stable. -/
theorem c7_witness :
    validateAndSanitize c7w = some c7wOut ∧ jsTrim c7wOut.source = c7wOut.source ∧
    validateAndSanitize (toJSValue c7wOut) = some c7wOut :=
  ⟨by decide, by decide,
    @c7_sanitize_idempotent_of_trim_stable c7w c7wOut (by decide) (by decide)⟩

/-! Retry-layer lemmas and claims -/

theorem retryAux_all_retryable {α : Type} (call : Nat → Except String α)
    (config : RetryConfig) (rand : Nat → ℚ) (msg : Nat → String)
    (hc : ∀ i, call i = .error (msg i))
    (hr : ∀ i, shouldRetry (detectErrorType (some (msg i))) = true) :
    ∀ n attempt, config.maxRetries - attempt = n → attempt ≤ config.maxRetries →
      (retryAux call config rand attempt).calls = config.maxRetries + 1 - attempt ∧
      (retryAux call config rand attempt).result = .error (msg config.maxRetries) := by
  intro n
  induction n with
  | zero =>
    intro attempt hsub hle
    have ha : attempt = config.maxRetries := by omega
    rw [retryAux]
    simp only [hc attempt]
    rw [dif_pos (by omega)]
    subst ha
    refine ⟨?_, rfl⟩
    show (1 : Nat) = config.maxRetries + 1 - config.maxRetries
    omega
  | succ k ih =>
    intro attempt hsub hle
    have hlt : attempt < config.maxRetries := by omega
    have ht := ih (attempt + 1) (by omega) (by omega)
    rw [retryAux]
    simp only [hc attempt]
    rw [dif_neg (by omega), if_neg (by rw [hr attempt]; decide)]
    refine ⟨?_, ht.2⟩
    show (retryAux call config rand (attempt + 1)).calls + 1 = _
    rw [ht.1]
    omega

/-- Claim C3 (theorem): when every remote call fails with a
NetworkError-classified error, the retry loop makes exactly
`maxRetries + 1` calls and then throws the last failure's message — no
success value is produced. -/
theorem c3_retry_exhaustion {α : Type} (call : Nat → Except String α)
    (config : RetryConfig) (rand : Nat → ℚ) (msg : Nat → String)
    (hc : ∀ i, call i = .error (msg i))
    (hnet : ∀ i, detectErrorType (some (msg i)) = .NETWORK_ERROR) :
    (callGeminiWithRetry call config rand).calls = config.maxRetries + 1 ∧
    (callGeminiWithRetry call config rand).result = .error (msg config.maxRetries) := by
  have hr : ∀ i, shouldRetry (detectErrorType (some (msg i))) = true := by
    intro i; rw [hnet i]; decide
  have h := retryAux_all_retryable call config rand msg hc hr config.maxRetries 0
    (by omega) (by omega)
  rw [callGeminiWithRetry]
  exact ⟨by rw [h.1]; omega, h.2⟩

def c3call : Nat → Except String Unit := fun _ => .error "network timeout"

/-- Claim C3 (witness): with the default config (maxRetries 3) and a
constant network failure, 4 calls are made and the error propagates. -/
theorem c3_witness :
    (callGeminiWithRetry c3call DEFAULT_RETRY_CONFIG (fun _ => 1/2)).calls =
      DEFAULT_RETRY_CONFIG.maxRetries + 1 ∧
    (callGeminiWithRetry c3call DEFAULT_RETRY_CONFIG (fun _ => 1/2)).result =
      .error "network timeout" :=
  c3_retry_exhaustion c3call DEFAULT_RETRY_CONFIG (fun _ => 1/2)
    (fun _ => "network timeout") (fun _ => rfl)
    (by intro i
        show detectErrorType (some "network timeout") = ErrorType.NETWORK_ERROR
        decide)

/-- Claim C4 (theorem): when attempt 0 fails with a non-retryable error
class (AuthError, Unknown), the loop makes exactly one call, propagates
that error, and awaits no backoff delay, for every RetryConfig. -/
theorem c4_nonretryable_immediate {α : Type} (call : Nat → Except String α)
    (config : RetryConfig) (rand : Nat → ℚ) (m : String)
    (h0 : call 0 = .error m)
    (hnr : shouldRetry (detectErrorType (some m)) = false) :
    callGeminiWithRetry call config rand =
      { result := .error m, calls := 1, delays := [] } := by
  rw [callGeminiWithRetry, retryAux]
  simp only [h0]
  by_cases hle : config.maxRetries ≤ 0
  · rw [dif_pos hle]
  · rw [dif_neg hle, if_pos hnr]

def c4call : Nat → Except String Unit := fun _ => .error "401 unauthorized"

/-- Claim C4 (witness): an AuthError-classified failure on attempt 0 under
the default config: one call, immediate propagation, no sleeps. -/
theorem c4_witness :
    callGeminiWithRetry c4call DEFAULT_RETRY_CONFIG (fun _ => 1/2) =
      { result := .error "401 unauthorized", calls := 1, delays := [] } :=
  c4_nonretryable_immediate c4call DEFAULT_RETRY_CONFIG (fun _ => 1/2)
    "401 unauthorized" rfl (by decide)

/-- Claim C5 (theorem): the backoff delay, computed as the jittered
(±25 percent) exponential base capped at `maxDelayMs`, is at least
60 000 ms for RateLimit errors for every attempt and config, and at most
`maxDelayMs * 1.25` for every other error class. -/
theorem c5_backoff_bounds (attempt : Nat) (config : RetryConfig)
    (errorType : ErrorType) (rand : ℚ) (h0 : 0 ≤ rand) (h1 : rand < 1)
    (hi : 0 < config.initialDelayMs) (him : config.initialDelayMs ≤ config.maxDelayMs)
    (hb : 1 < config.backoffMultiplier) :
    (errorType = ErrorType.RATE_LIMIT →
      (60000 : ℤ) ≤ calculateRetryDelay attempt config errorType rand) ∧
    (errorType ≠ ErrorType.RATE_LIMIT →
      (calculateRetryDelay attempt config errorType rand : ℚ) ≤
        config.maxDelayMs * 1.25) := by
  constructor
  · intro he
    simp only [calculateRetryDelay]
    rw [if_pos he]
    exact le_max_right _ _
  · intro he
    simp only [calculateRetryDelay]
    rw [if_neg he]
    set b := min (config.initialDelayMs * config.backoffMultiplier ^ attempt)
      config.maxDelayMs with hbdef
    have hb0 : 0 ≤ b := by
      apply le_min
      · exact (mul_pos hi (pow_pos (lt_trans zero_lt_one hb) attempt)).le
      · exact (lt_of_lt_of_le hi him).le
    have h2 : (rand - 0.5) * 2 - 1 ≤ 0 := by linarith
    have h3 : (0 : ℚ) ≤ b * 0.25 := by nlinarith
    have hju : b * 0.25 * (rand - 0.5) * 2 ≤ b * 0.25 := by nlinarith
    have hfloor : ((⌊b + b * 0.25 * (rand - 0.5) * 2⌋ : ℤ) : ℚ) ≤
        b + b * 0.25 * (rand - 0.5) * 2 := Int.floor_le _
    have hmb : b ≤ config.maxDelayMs := min_le_right _ _
    nlinarith [hfloor, hju, hmb, hb0]

/-- Claim C5 (witness): concrete bounds at attempt 0 under the default
config with a median random sample. -/
theorem c5_witness :
    (0 : ℚ) ≤ 1/2 ∧
    (60000 : ℤ) ≤ calculateRetryDelay 0 DEFAULT_RETRY_CONFIG ErrorType.RATE_LIMIT (1/2) ∧
    (calculateRetryDelay 0 DEFAULT_RETRY_CONFIG ErrorType.NETWORK_ERROR (1/2) : ℚ) ≤
      DEFAULT_RETRY_CONFIG.maxDelayMs * 1.25 := by
  refine ⟨by norm_num, ?_, ?_⟩
  · exact (c5_backoff_bounds 0 DEFAULT_RETRY_CONFIG ErrorType.RATE_LIMIT (1/2)
      (by norm_num) (by norm_num) (by norm_num [DEFAULT_RETRY_CONFIG])
      (by norm_num [DEFAULT_RETRY_CONFIG]) (by norm_num [DEFAULT_RETRY_CONFIG])).1 rfl
  · exact (c5_backoff_bounds 0 DEFAULT_RETRY_CONFIG ErrorType.NETWORK_ERROR (1/2)
      (by norm_num) (by norm_num) (by norm_num [DEFAULT_RETRY_CONFIG])
      (by norm_num [DEFAULT_RETRY_CONFIG]) (by norm_num [DEFAULT_RETRY_CONFIG])).2
      (by decide)

/-- Precedence-ordered classification rules of the specification: substring
groups checked in order, first hit wins. -/
def errorPrecedence : List (List String × ErrorType) :=
  [(["429", "rate limit", "quota"], .RATE_LIMIT),
   (["parse", "json", "invalid"], .PARSE_ERROR),
   (["network", "fetch", "timeout"], .NETWORK_ERROR),
   (["validation"], .VALIDATION_ERROR),
   (["auth", "401", "403"], .AUTH_ERROR)]

/-- Specification-side classifier: the class of the first precedence rule
one of whose substrings occurs in the lower-cased message, else Unknown;
total and pure by construction. -/
def detectErrorTypeSpec (message? : Option String) : ErrorType :=
  let m := jsToLower (message?.getD "")
  match errorPrecedence.find? (fun rule => rule.1.any (fun pat => jsIncludes m pat)) with
  | some rule => rule.2
  | none => .UNKNOWN

/-- Claim C6 (theorem): `detectErrorType` agrees with the precedence-list
classifier of the specification on every input (including an absent
message), hence checks the substring groups in exactly the stated order
and never throws. -/
theorem c6_classifier_refines_spec (message? : Option String) :
    detectErrorType message? = detectErrorTypeSpec message? := by
  have hm : (match message? with | some s => jsToLower s | none => "") =
      jsToLower (message?.getD "") := by cases message? <;> rfl
  simp only [detectErrorType, detectErrorTypeSpec, errorPrecedence, hm]
  set m := jsToLower (message?.getD "") with hmdef
  simp only [List.find?, List.any_cons, List.any_nil, Bool.or_false, Bool.or_assoc]
  by_cases h1 : (jsIncludes m "429" || (jsIncludes m "rate limit" || jsIncludes m "quota")) = true
  · simp [h1]
  rw [Bool.not_eq_true] at h1
  simp only [h1, Bool.false_eq_true, if_false]
  by_cases h2 : (jsIncludes m "parse" || (jsIncludes m "json" || jsIncludes m "invalid")) = true
  · simp [h2]
  rw [Bool.not_eq_true] at h2
  simp only [h2, Bool.false_eq_true, if_false]
  by_cases h3 : (jsIncludes m "network" || (jsIncludes m "fetch" || jsIncludes m "timeout")) = true
  · simp [h3]
  rw [Bool.not_eq_true] at h3
  simp only [h3, Bool.false_eq_true, if_false]
  by_cases h4 : jsIncludes m "validation" = true
  · simp [h4]
  rw [Bool.not_eq_true] at h4
  simp only [h4, Bool.false_eq_true, if_false]
  by_cases h5 : (jsIncludes m "auth" || (jsIncludes m "401" || jsIncludes m "403")) = true
  · simp [h5]
  rw [Bool.not_eq_true] at h5
  simp only [h5, Bool.false_eq_true, if_false]

/-- Message of the error thrown by `validateGeneratedQueries`
(validation.ts line 275) when parsing the generated-queries payload
fails. -/
def generatedQueriesParseMessage (jsError : String) : String :=
  "Failed to parse generated queries: " ++ jsError

theorem shouldRetry_of_parse {msg : String}
    (hparse : jsIncludes (jsToLower msg) "parse" = true) :
    shouldRetry (detectErrorType (some msg)) = true := by
  simp only [detectErrorType]
  by_cases h1 : (jsIncludes (jsToLower msg) "429" || jsIncludes (jsToLower msg) "rate limit" ||
      jsIncludes (jsToLower msg) "quota") = true
  · rw [if_pos h1]; decide
  · rw [Bool.not_eq_true] at h1
    rw [if_neg (by rw [h1]; decide), if_pos (by rw [hparse]; simp)]
    decide

/-- Claim C10 (amended theorem): every JSON-parse failure message produced
inside the sanitization layer contains "parse" (and, for `safeJSONParse`,
also "json") in lower case, and is therefore always classified retryable —
as ParseError, except when the embedded payload text itself carries a
higher-precedence RateLimit substring. -/
theorem c10_parse_failures_retryable (text jsError : String) :
    jsIncludes (jsToLower (safeJSONParseMessage text jsError)) "parse" = true ∧
    jsIncludes (jsToLower (safeJSONParseMessage text jsError)) "json" = true ∧
    shouldRetry (detectErrorType (some (safeJSONParseMessage text jsError))) = true ∧
    jsIncludes (jsToLower (generatedQueriesParseMessage jsError)) "parse" = true ∧
    shouldRetry (detectErrorType (some (generatedQueriesParseMessage jsError))) = true := by
  have hparse1 : jsIncludes (jsToLower (safeJSONParseMessage text jsError)) "parse" = true := by
    rw [safeJSONParseMessage]
    simp only [jsToLower_append]
    exact jsIncludes_append_left _ (jsIncludes_append_left _ (jsIncludes_append_left _
      (jsIncludes_append_left _ (by decide))))
  have hjson1 : jsIncludes (jsToLower (safeJSONParseMessage text jsError)) "json" = true := by
    rw [safeJSONParseMessage]
    simp only [jsToLower_append]
    exact jsIncludes_append_left _ (jsIncludes_append_left _ (jsIncludes_append_left _
      (jsIncludes_append_left _ (by decide))))
  have hparse2 : jsIncludes (jsToLower (generatedQueriesParseMessage jsError)) "parse" = true := by
    rw [generatedQueriesParseMessage]
    simp only [jsToLower_append]
    exact jsIncludes_append_left _ (by decide)
  exact ⟨hparse1, hjson1, shouldRetry_of_parse hparse1, hparse2,
    shouldRetry_of_parse hparse2⟩

/-- Claim C10 (counterexample): a syntactically invalid payload whose text
contains "quota" produces a parse-failure message that `detectErrorType`
classifies as RateLimit, not ParseError (still retryable, but with the
60-second rate-limit floor). -/
theorem c10_counterexample :
    detectErrorType (some (safeJSONParseMessage "quota exceeded" "Unexpected token q")) ≠
      ErrorType.PARSE_ERROR := by decide

/-! Generation orchestrator lemmas and claim C8 -/

theorem jsMapIdxAux_length {α β : Type} (f : Nat → α → β) :
    ∀ (i : Nat) (l : List α), (jsMapIdxAux f i l).length = l.length := by
  intro i l
  induction l generalizing i with
  | nil => rfl
  | cons hd tl ih => simp [jsMapIdxAux, ih]

theorem jsMapIdxAux_renumber_ids :
    ∀ (l : List GenQuery) (i : Nat),
      (jsMapIdxAux (fun idx q => { q with query_id := (idx : Int) + 1 }) i l).map
          (fun q => q.query_id) =
        (List.range' (i + 1) l.length).map (fun k => (k : Int)) := by
  intro l
  induction l with
  | nil => intro i; rfl
  | cons hd tl ih =>
    intro i
    simp only [jsMapIdxAux, List.map_cons, List.length_cons, List.range', ih (i + 1)]
    congr 1

theorem jsMapIdxAux_texts :
    ∀ (l : List GenQuery) (i : Nat),
      (jsMapIdxAux (fun idx q => { q with query_id := (idx : Int) + 1 }) i l).map
          (fun q => q.query_text) = l.map (fun q => q.query_text) := by
  intro l
  induction l with
  | nil => intro i; rfl
  | cons hd tl ih => intro i; simp [jsMapIdxAux, ih (i + 1)]

theorem genLoop_attempts_le (count : Nat) (supplier : Nat → List GenQuery) :
    ∀ (n a : Nat) (qs : List GenQuery), 3 - a = n → a ≤ 3 →
      (genLoop count supplier qs a).2 ≤ 3 := by
  intro n
  induction n with
  | zero =>
    intro a qs hsub hle
    rw [genLoop, dif_neg (by omega)]
    exact hle
  | succ k ih =>
    intro a qs hsub hle
    rw [genLoop]
    split
    · exact ih (a + 1) _ (by omega) (by omega)
    · exact hle

theorem genLoop_no_call (count : Nat) (supplier : Nat → List GenQuery)
    (qs : List GenQuery) (a : Nat) (h : count ≤ qs.length) :
    genLoop count supplier qs a = (qs, a) := by
  rw [genLoop, dif_neg (by omega)]

/-- Claim C8 (theorem): the generation orchestrator issues at most 3
supplementary calls, truncates the concatenated list to the target count,
and assigns `query_id` sequentially 1..length in list order regardless of
the ids the model returned; when the initial response already meets the
target (e.g. 250 valid records for a target of 200), it returns exactly
`count` records, their texts being the first `count` returned, with no
supplementary call. -/
theorem c8_generation_truncation_renumber (count : Nat) (initial : List GenQuery)
    (supplier : Nat → List GenQuery) :
    (handleGenerateQueries count (some initial) supplier).2 ≤ 3 ∧
    (handleGenerateQueries count (some initial) supplier).1.length ≤ count ∧
    (handleGenerateQueries count (some initial) supplier).1.map (fun q => q.query_id) =
      (List.range' 1 (handleGenerateQueries count (some initial) supplier).1.length).map
        (fun k => (k : Int)) ∧
    (count ≤ initial.length →
      (handleGenerateQueries count (some initial) supplier).2 = 0 ∧
      (handleGenerateQueries count (some initial) supplier).1.length = count ∧
      (handleGenerateQueries count (some initial) supplier).1.map (fun q => q.query_text) =
        (initial.take count).map (fun q => q.query_text)) := by
  refine ⟨?_, ?_, ?_, ?_⟩
  · exact genLoop_attempts_le count supplier 3 0 initial rfl (by omega)
  · show (jsMapIdx _ _).length ≤ count
    rw [jsMapIdx, jsMapIdxAux_length]
    exact (List.length_take _ _).trans_le (Nat.min_le_left _ _)
  · have hlen : (handleGenerateQueries count (some initial) supplier).1.length =
        ((genLoop count supplier initial 0).1.take count).length := by
      show (jsMapIdx _ _).length = _
      rw [jsMapIdx, jsMapIdxAux_length]
      simp
    rw [hlen]
    show (jsMapIdx _ _).map _ = _
    rw [jsMapIdx, jsMapIdxAux_renumber_ids]
    simp
  · intro h
    have hloop := genLoop_no_call count supplier initial 0 h
    refine ⟨?_, ?_, ?_⟩
    · show (genLoop count supplier initial 0).2 = 0
      rw [hloop]
    · show (jsMapIdx _ ((genLoop count supplier initial 0).1.take count)).length = count
      rw [jsMapIdx, jsMapIdxAux_length, hloop]
      simp [List.length_take]
      omega
    · show (jsMapIdx _ ((genLoop count supplier initial 0).1.take count)).map _ = _
      rw [jsMapIdx, jsMapIdxAux_texts, hloop]

def c8init : List GenQuery :=
  [⟨99, "qa", "", "", "", ""⟩, ⟨77, "qb", "", "", "", ""⟩, ⟨55, "qc", "", "", "", ""⟩]

/-- Claim C8 (witness): a 3-record response for a target of 2 yields
exactly 2 records renumbered 1..2, with no supplementary call. -/
theorem c8_witness :
    (handleGenerateQueries 2 (some c8init) (fun _ => [])).2 = 0 ∧
    (handleGenerateQueries 2 (some c8init) (fun _ => [])).1.length = 2 ∧
    (handleGenerateQueries 2 (some c8init) (fun _ => [])).1.map (fun q => q.query_id) =
      (List.range' 1
        (handleGenerateQueries 2 (some c8init) (fun _ => [])).1.length).map
        (fun k => (k : Int)) := by
  have h := c8_generation_truncation_renumber 2 c8init (fun _ => [])
  exact ⟨(h.2.2.2 (by decide)).1, (h.2.2.2 (by decide)).2.1, h.2.2.1⟩

/-! Rate limiter lemmas and claim C9 -/

theorem processQueue_mono (limits : GeminiRateLimits) :
    ∀ (fuel pending : Nat) (ts : List Int) (now x : Int),
      x ∈ processQueue limits fuel pending ts now → now ≤ x := by
  intro fuel
  induction fuel with
  | zero =>
    intro pending ts now x hx
    simp [processQueue] at hx
  | succ n ih =>
    intro pending ts now x hx
    rcases pending with _ | p
    · simp [processQueue] at hx
    · simp only [processQueue] at hx
      split at hx
      · have h1 := ih _ _ _ _ hx
        have h2 : (0 : Int) ≤ max (60000 - (now -
            ((ts.filter (fun t => now - t < 60000)).headD 0)) + 100) 0 := le_max_right _ _
        omega
      · rcases List.mem_cons.mp hx with rfl | hx2
        · exact le_refl x
        · have h1 := ih _ _ _ _ hx2
          split at h1 <;> omega

theorem processQueue_countP_zero (limits : GeminiRateLimits)
    (fuel pending : Nat) (ts : List Int) (now : Int) (h : (60000 : Int) ≤ now) :
    (processQueue limits fuel pending ts now).countP (fun t => t < 60000) = 0 := by
  rw [List.countP_eq_zero]
  intro a ha
  have := processQueue_mono limits fuel pending ts now a ha
  simp only [decide_eq_true_eq, not_lt]
  omega

theorem processQueue_window_bound (limits : GeminiRateLimits) :
    ∀ (fuel pending : Nat) (ts : List Int) (now : Int),
      (∀ t ∈ ts, 0 ≤ t ∧ t ≤ now) → 0 ≤ now → now < 60000 →
      (processQueue limits fuel pending ts now).countP (fun t => t < 60000) ≤
        limits.requestsPerMinute - ts.length := by
  intro fuel
  induction fuel with
  | zero =>
    intro pending ts now _ _ _
    simp [processQueue]
  | succ n ih =>
    intro pending ts now hts hnow0 hnow
    rcases pending with _ | p
    · simp [processQueue]
    · simp only [processQueue]
      have hfilter : ts.filter (fun t => now - t < 60000) = ts := by
        apply List.filter_eq_self.mpr
        intro t ht
        have := hts t ht
        simp only [decide_eq_true_eq]
        omega
      rw [hfilter]
      split
      · -- window full: the sleep jumps the clock past 60 000
        have hnew : (60000 : Int) ≤ now + max (60000 - (now - ts.headD 0) + 100) 0 := by
          rcases ts with _ | ⟨t0, ts'⟩
          · simp only [List.headD]
            omega
          · have hh := hts t0 (List.mem_cons_self t0 ts')
            simp only [List.headD]
            omega
        rw [processQueue_countP_zero _ _ _ _ _ hnew]
        exact Nat.zero_le _
      · next hlt =>
        have hltR : ts.length < limits.requestsPerMinute := by omega
        rw [List.countP_cons]
        have hinv : ∀ t ∈ ts ++ [now],
            0 ≤ t ∧ t ≤ (if p > 0 then now + 200 else now) := by
          intro t ht
          rcases List.mem_append.mp ht with ht1 | ht2
          · have := hts t ht1
            split <;> omega
          · rcases List.mem_singleton.mp ht2 with rfl
            split <;> omega
        by_cases hc : (if p > 0 then now + 200 else now) < 60000
        · have hc0 : (0 : Int) ≤ (if p > 0 then now + 200 else now) := by split <;> omega
          have hrest := ih p (ts ++ [now]) _ hinv hc0 hc
          rw [List.length_append, List.length_singleton] at hrest
          simp only [decide_eq_true_eq, hnow, if_pos]
          omega
        · push_neg at hc
          rw [processQueue_countP_zero _ _ _ _ _ hc]
          simp only [decide_eq_true_eq, hnow, if_pos]
          omega

/-- Claim C9 (amended theorem): for every requests-per-minute limit and any
number of loop iterations, at most `requestsPerMinute` of the
`requestsPerMinute + 5` queued instant no-op calls execute within the first
60 seconds: the admission loop prunes timestamps older than 60 s and, once
the in-window count reaches the limit, sleeps until the oldest timestamp
exits the window plus a 100 ms margin, which moves the clock past 60 s.
(The original "fewer than requestsPerMinute" bound is refuted by the
counterexample: exactly `requestsPerMinute` execute.) -/
theorem c9_rate_limiter_window_ceiling (fuel : Nat) (limits : GeminiRateLimits) :
    (processQueue limits fuel (limits.requestsPerMinute + 5) [] 0).countP
      (fun t => t < 60000) ≤ limits.requestsPerMinute := by
  have h := processQueue_window_bound limits fuel (limits.requestsPerMinute + 5) [] 0
    (by intro t ht; simp at ht) (by omega) (by omega)
  simpa using h

/-- Claim C9 (counterexample): with the Gemini Flash limit of 15 requests
per minute and 20 queued instant no-ops, exactly 15 — not fewer than 15 —
execute within the first 60 seconds (at 0, 200, ..., 2800 ms; the 16th
runs at 60 100 ms). -/
theorem c9_counterexample :
    (processQueue GEMINI_FLASH_LIMITS 64 (GEMINI_FLASH_LIMITS.requestsPerMinute + 5)
        [] 0).countP (fun t => t < 60000) = GEMINI_FLASH_LIMITS.requestsPerMinute ∧
    ¬ ((processQueue GEMINI_FLASH_LIMITS 64 (GEMINI_FLASH_LIMITS.requestsPerMinute + 5)
        [] 0).countP (fun t => t < 60000) < GEMINI_FLASH_LIMITS.requestsPerMinute) := by
  constructor <;> decide

end AEO
